import Mathlib

/-
Verification development for the AI-usage declaration web application
(an Express + MySQL server with a React client).

Server side (server/routes/declarations.js, server/utils/responses.js,
server/index.js) is embedded as pure functions over an explicit request /
environment / outcome model:

* `processPost` embeds the `POST /api/declarations` pipeline: the multer
  upload phase (file filter + 5 MB size limit), the handler's required-field
  validation, the `JSON.parse` of the `aiTools` field, the fan-out of one
  `INSERT` per tool, and the response construction, including the
  `fs.unlinkSync` cleanup branches.
* `getDeclarations` embeds `GET /api/declarations`
  (`SELECT * FROM ai_declarations ORDER BY created_at DESC`), with the SQL
  `ORDER BY ... DESC` embedded as a stable descending insertion sort on the
  stored row list.
* `errorResponse` embeds the helper of server/utils/responses.js.

External effects are made explicit:

* `Env.insertOk i` tells whether the i-th issued `INSERT` commits,
  `Env.now i` is the `CURRENT_TIMESTAMP` the database assigns to it, and
  `Env.dbErrMsg` is the `error.message` of a failed insert.
* The result of the external `JSON.parse` on the raw `aiTools` string is
  carried in the request as `PostRequest.aiToolsJson` (`none` = parse threw).
* `PostOutcome.rows` are the rows this request commits to the store and
  `PostOutcome.fileOnDisk` is the uploaded file still on disk afterwards.

Client side (client/src/pages/HomePage.tsx, client/src/types/index.ts) is
embedded as `groupedDeclarations` (the `reduce` into a string-keyed object;
since every grouping key contains a literal "-" it is never a JS array
index, so `Object.values` enumerates in key-insertion order, which the
association-list embedding preserves) and `renderCard` / `homePageCards`
(the card rendering, which reads all scalar fields from `group[0]`).
-/

namespace AiGuidebook

/-- JSON values, as produced by the external `JSON.parse`.  Numbers are
modelled as integers (the claims only need non-string elements to exist). -/
inductive Json where
  | null
  | bool (b : Bool)
  | num (n : Int)
  | str (s : String)
  | arr (elems : List Json)
  | obj (fields : List (String × Json))

/-- Whether a JSON value is a string. -/
def Json.isStr : Json → Bool
  | .str _ => true
  | _ => false

/-- An incoming multipart file as multer sees it: `file.originalname`,
`file.mimetype`, `file.size` in bytes, and the generated unique suffix
(`Date.now() + '-' + Math.round(Math.random() * 1E9)`). -/
structure UploadedFile where
  originalname : String
  mimetype : String
  size : Nat
  uniqueSuffix : String
  deriving DecidableEq, Repr

/-- A `POST /api/declarations` request after body parsing: the five text
fields of `req.body` (`none` = field absent), the optional file, and the
result of the external `JSON.parse` applied to the raw `aiTools` string
(`none` = the parse threw). -/
structure PostRequest where
  userName : Option String
  assignmentTitle : Option String
  aiTools : Option String
  usagePurpose : Option String
  aiContent : Option String
  file : Option UploadedFile
  aiToolsJson : Option Json

/-- One row of the `ai_declarations` table as written by the insert
(the `id` column is auto-assigned by the database and never read by the
application logic, so it is not modelled).  `ai_tool` keeps the JSON value
passed as the SQL parameter. -/
structure Row where
  user_name : String
  assignment_title : String
  ai_tool : Json
  usage_purpose : String
  ai_content : String
  screenshot_path : Option String
  created_at : Nat

/-- The external environment of one request: `process.env.NODE_ENV`,
the commit outcome and database timestamp of each issued insert, and the
`error.message` reported when an insert fails. -/
structure Env where
  nodeEnv : String
  insertOk : Nat → Bool
  now : Nat → Nat
  dbErrMsg : String

/-- Observable outcome of one `POST /api/declarations` request: HTTP status,
response body fields (`success`, `message`, optional `error`), the rows the
request commits to the store, and the uploaded file left on disk. -/
structure PostOutcome where
  status : Nat
  success : Bool
  message : String
  error : Option String
  rows : List Row
  fileOnDisk : Option String

/-- JavaScript falsiness of an optional form-field string: a multipart text
field is falsy exactly when it is absent or the empty string. -/
def falsy : Option String → Bool
  | none => true
  | some s => s = ""

/-- Whether `pat` is a leading segment of `s` (character lists). -/
def leadsWith : List Char → List Char → Bool
  | [], _ => true
  | _ :: _, [] => false
  | p :: ps, c :: cs => p == c && leadsWith ps cs

/-- Whether `pat` occurs as a contiguous segment anywhere in `s`
(character lists).  This is what an unanchored regex literal tests. -/
def containsSeg (pat : List Char) : List Char → Bool
  | [] => leadsWith pat []
  | c :: cs => leadsWith pat (c :: cs) || containsSeg pat cs

/-- The test of the unanchored regex `/jpeg|jpg|png|gif|webp/`: true iff
any of the five alternatives occurs somewhere in the string. -/
def allowedTypesTest (s : String) : Bool :=
  containsSeg "jpeg".toList s.toList || containsSeg "jpg".toList s.toList ||
  containsSeg "png".toList s.toList || containsSeg "gif".toList s.toList ||
  containsSeg "webp".toList s.toList

/-- The suffix of the character list starting at its last '.', if any. -/
def suffixFromLastDot : List Char → Option (List Char)
  | [] => none
  | c :: cs =>
    match suffixFromLastDot cs with
    | some e => some e
    | none => if c = '.' then some (c :: cs) else none

/-- Model of Node's `path.extname` on a plain filename: the substring from
the last '.' to the end, or "" when there is no '.' or the only '.' is the
leading character (dotfile rule). -/
def extname (s : String) : String :=
  match suffixFromLastDot s.toList with
  | none => ""
  | some e => if e.length = s.toList.length then "" else String.mk e

/-- ASCII lowercasing, the effect of `toLowerCase()` on the extensions at
stake. -/
def lowerAscii (s : String) : String :=
  String.mk (s.toList.map Char.toLower)

/-- The multer `fileFilter` of declarations.js: both the lowercased
extension of `originalname` and the (unchanged) `mimetype` must pass the
`/jpeg|jpg|png|gif|webp/` test. -/
def fileFilter (originalname mimetype : String) : Bool :=
  allowedTypesTest (lowerAscii (extname originalname)) &&
  allowedTypesTest mimetype

/-- Whether multer stores the file: it passes `fileFilter` and respects the
`limits: { fileSize: 5 * 1024 * 1024 }` byte limit. -/
def fileAccepted (f : UploadedFile) : Bool :=
  fileFilter f.originalname f.mimetype && decide (f.size ≤ 5 * 1024 * 1024)

/-- The stored filename generated by the multer disk storage:
`'screenshot-' + uniqueSuffix + path.extname(file.originalname)`. -/
def storedFilename (f : UploadedFile) : String :=
  "screenshot-" ++ f.uniqueSuffix ++ extname f.originalname

/-- The `screenshot_path` column value shared by the inserted rows:
`/uploads/<filename>` when a file was stored, SQL NULL otherwise. -/
def screenshotPath : Option String → Option String
  | none => none
  | some fn => some ("/uploads/" ++ fn)

/-- The row written by the insert issued for one tool element: the five
request fields, the shared screenshot path, and the database timestamp. -/
def mkRow (req : PostRequest) (tool : Json) (sp : Option String) (t : Nat) : Row :=
  { user_name := req.userName.getD ""
    assignment_title := req.assignmentTitle.getD ""
    ai_tool := tool
    usage_purpose := req.usagePurpose.getD ""
    ai_content := req.aiContent.getD ""
    screenshot_path := sp
    created_at := t }

/-- The rows that end up committed: one per tool element whose insert
succeeds (all inserts are issued by `Promise.all`; each commits or fails
independently). -/
def committedRows (env : Env) (req : PostRequest) (tools : List Json)
    (sp : Option String) : List Row :=
  (tools.enum.filter (fun p => env.insertOk p.1)).map
    (fun p => mkRow req p.2 sp (env.now p.1))

/-- Whether every issued insert commits. -/
def allInsertsOk (env : Env) (tools : List Json) : Bool :=
  tools.enum.all (fun p => env.insertOk p.1)

/-- The 400 outcome of the `Invalid AI tools format` branch (the stored
file, if any, was removed by `fs.unlinkSync`). -/
def invalidToolsOutcome : PostOutcome :=
  { status := 400, success := false, message := "Invalid AI tools format"
    error := none, rows := [], fileOnDisk := none }

/-- The handler body of `router.post('/')`, run after multer stored the
file (if one was sent and accepted): required-field validation, `aiTools`
parsing, the per-tool insert fan-out, and the catch block. -/
def handlerBody (env : Env) (req : PostRequest) (storedFile : Option String) :
    PostOutcome :=
  if falsy req.userName || falsy req.assignmentTitle || falsy req.aiTools ||
      falsy req.usagePurpose || falsy req.aiContent then
    { status := 400, success := false
      message := "All fields except screenshot are required"
      error := none, rows := [], fileOnDisk := none }
  else
    match req.aiToolsJson with
    | some (Json.arr tools) =>
      if tools.isEmpty then invalidToolsOutcome
      else
        let sp := screenshotPath storedFile
        let committed := committedRows env req tools sp
        if allInsertsOk env tools then
          { status := 201, success := true
            message := "Successfully created " ++ toString tools.length ++
              " declaration(s)"
            error := none, rows := committed, fileOnDisk := storedFile }
        else
          { status := 500, success := false
            message := "Failed to create declaration"
            error := some env.dbErrMsg, rows := committed, fileOnDisk := none }
    | _ => invalidToolsOutcome

/-- The `error.message` produced by the multer phase when the file is
refused: the `fileFilter` message, or multer's `File too large`. -/
def multerErrorMessage (f : UploadedFile) : String :=
  if fileFilter f.originalname f.mimetype then "File too large"
  else "Only image files are allowed (jpeg, jpg, png, gif, webp)"

/-- Outcome when multer refuses the file: the error skips the route handler
and reaches the catch-all middleware of server/index.js, which answers 500
`Internal server error` and exposes `err.message` only in development.
Multer removes the partially stored file, so nothing stays on disk. -/
def multerErrorOutcome (env : Env) (f : UploadedFile) : PostOutcome :=
  { status := 500, success := false, message := "Internal server error"
    error := if env.nodeEnv = "development" then some (multerErrorMessage f)
      else none
    rows := [], fileOnDisk := none }

/-- The whole `POST /api/declarations` pipeline: the multer upload phase
followed by the route handler. -/
def processPost (env : Env) (req : PostRequest) : PostOutcome :=
  match req.file with
  | none => handlerBody env req none
  | some f =>
    if fileAccepted f then handlerBody env req (some (storedFilename f))
    else multerErrorOutcome env f

/-- Whether the multer phase lets the request through to the handler. -/
def filePhaseOk (req : PostRequest) : Bool :=
  match req.file with
  | none => true
  | some f => fileAccepted f

/-- The file the handler sees stored on disk when it starts running. -/
def storedFileOf (req : PostRequest) : Option String :=
  match req.file with
  | none => none
  | some f => if fileAccepted f then some (storedFilename f) else none

/-- Whether the five required text fields pass the handler's
`if (!userName || ...)` check. -/
def fieldsOk (req : PostRequest) : Bool :=
  !(falsy req.userName || falsy req.assignmentTitle || falsy req.aiTools ||
    falsy req.usagePurpose || falsy req.aiContent)

/-- Whether the parsed `aiTools` passes the handler's array check:
`JSON.parse` succeeded, `Array.isArray` holds, and the array is non-empty
(element types are NOT checked by the code). -/
def toolsOk (req : PostRequest) : Bool :=
  match req.aiToolsJson with
  | some (Json.arr tools) => !tools.isEmpty
  | _ => false

/-- Whether the whole handler validation passes. -/
def validationOk (req : PostRequest) : Bool :=
  fieldsOk req && toolsOk req

/-- Response of a successful `GET /api/declarations`. -/
structure GetResponse where
  status : Nat
  success : Bool
  count : Nat
  data : List Row

/-- Stable insertion of a row into a list descending by `created_at`:
the row goes before the first strictly older row, after equal timestamps. -/
def insertDesc (r : Row) : List Row → List Row
  | [] => [r]
  | s :: rest =>
    if s.created_at < r.created_at then r :: s :: rest
    else s :: insertDesc r rest

/-- Stable descending sort by `created_at`: the embedding of
`ORDER BY created_at DESC` over the stored rows (ties keep storage order). -/
def sortByCreatedAtDesc : List Row → List Row
  | [] => []
  | r :: rest => insertDesc r (sortByCreatedAtDesc rest)

/-- The `GET /api/declarations` handler on a given table state: the full
sorted table, `count: rows.length`, HTTP 200. -/
def getDeclarations (store : List Row) : GetResponse :=
  { status := 200, success := true
    count := (sortByCreatedAtDesc store).length
    data := sortByCreatedAtDesc store }

/-- Error body of a failed `GET /api/declarations` (`e` is the caught
`error.message`): the catch block always attaches `error: error.message`. -/
structure GetErrorResponse where
  status : Nat
  success : Bool
  message : String
  error : Option String

/-- The catch block of `router.get('/')` when the query fails. -/
def getDeclarationsFailure (e : String) : GetErrorResponse :=
  { status := 500, success := false, message := "Failed to fetch declarations"
    error := some e }

/-- The `errorResponse` helper of server/utils/responses.js: the `error`
field is attached only when an error is given and `NODE_ENV` is
`development`. -/
def errorResponse (nodeEnv message : String) (statusCode : Nat)
    (error : Option String) : Nat × GetErrorResponse :=
  (statusCode,
    { status := statusCode, success := false, message := message
      error := match error with
        | some e => if nodeEnv = "development" then some e else none
        | none => none })

/-- A declaration row as the client receives it (client/src/types/index.ts):
`created_at` is the JSON-serialized timestamp string, `screenshot_path` is
`string | null`. -/
structure Declaration where
  id : Nat
  user_name : String
  assignment_title : String
  ai_tool : String
  usage_purpose : String
  ai_content : String
  screenshot_path : Option String
  created_at : String
  deriving DecidableEq, Repr

/-- The grouping key of HomePage.tsx: the template literal
`${user_name}-${assignment_title}-${created_at}`. -/
def groupKey (d : Declaration) : String :=
  d.user_name ++ "-" ++ d.assignment_title ++ "-" ++ d.created_at

/-- One step of the `reduce`: push `d` onto the entry for key `k`, creating
the entry at the end if absent (JS object key-insertion order; the keys
contain a literal "-" so they are never array indices and `Object.values`
enumerates them in insertion order, which this association list realizes). -/
def upsert : List (String × List Declaration) → String → Declaration →
    List (String × List Declaration)
  | [], k, d => [(k, [d])]
  | (k0, g) :: rest, k, d =>
    if k0 = k then (k0, g ++ [d]) :: rest
    else (k0, g) :: upsert rest k d

/-- The fold body of `declarations.reduce(...)`. -/
def addDecl (acc : List (String × List Declaration)) (d : Declaration) :
    List (String × List Declaration) :=
  upsert acc (groupKey d) d

/-- The `groupedDeclarations` value of HomePage.tsx: the `reduce` over the fetched
row list, as an ordered association list from key to group. -/
def groupedDeclarations (ds : List Declaration) :
    List (String × List Declaration) :=
  ds.foldl addDecl []

/-- The keys of a key-string list that are new relative to `seen`, kept in
first-occurrence order (used to state the first-seen-order property of the
grouping). -/
def newKeys : List String → List String → List String
  | _, [] => []
  | seen, k :: ks =>
    if k ∈ seen then newKeys seen ks
    else k :: newKeys (seen ++ [k]) ks

/-- The data a rendered declaration card displays. -/
structure Card where
  assignment_title : String
  user_name : String
  date : String
  tools : List String
  usage_purpose : String
  ai_content : String
  screenshot_path : Option String
  deriving DecidableEq, Repr

/-- The card rendered for one group by HomePage.tsx: every scalar field
comes from `group[0]` (`firstDeclaration`); the tool badges map over the
whole group.  `fmt` abstracts the pure `formatDate` locale formatting. -/
def renderCard (fmt : String → String) : List Declaration → Option Card
  | [] => none
  | d0 :: rest => some
    { assignment_title := d0.assignment_title
      user_name := d0.user_name
      date := fmt d0.created_at
      tools := (d0 :: rest).map Declaration.ai_tool
      usage_purpose := d0.usage_purpose
      ai_content := d0.ai_content
      screenshot_path := d0.screenshot_path }

/-- The card list of the home page:
`Object.values(groupedDeclarations).map(group => ...)`. -/
def homePageCards (fmt : String → String) (ds : List Declaration) :
    List Card :=
  (groupedDeclarations ds).filterMap (fun p => renderCard fmt p.2)

/-- The allow-list of image formats named by the specification. -/
def allowedFormats : List String := ["jpeg", "jpg", "png", "gif", "webp"]

/-- Acceptance predicate following the specification text for C5: the
lowercased extension IS one of the allowed formats (exact match, with its
leading dot), the MIME type IS `image/<format>` for an allowed format, and
the size is at most 5 MiB. -/
def specFileAccepted (f : UploadedFile) : Bool :=
  (allowedFormats.any (fun t => lowerAscii (extname f.originalname) == "." ++ t)) &&
  (allowedFormats.any (fun t => f.mimetype == "image/" ++ t)) &&
  decide (f.size ≤ 5 * 1024 * 1024)

/-- Parsing predicate following the claim text of C2: `aiTools` parses as a
non-empty list of STRINGS. -/
def specStringListOk (req : PostRequest) : Bool :=
  match req.aiToolsJson with
  | some (Json.arr tools) => !tools.isEmpty && tools.all Json.isStr
  | _ => false

/-- Whitespace test for the trimming predicate of the specification
(space, tab, newline, carriage return). -/
def isWS (c : Char) : Bool :=
  c = ' ' || c = '\t' || c = '\n' || c = '\r'

/-- Whether a string is non-empty after trimming whitespace, i.e. contains
some non-whitespace character (the specification's requirement on
`user_name` and `assignment_title`). -/
def trimmedNonEmpty (s : String) : Bool :=
  s.toList.any (fun c => !isWS c)

/-- Inserting into the descending sort is a permutation of consing. -/
theorem insertDesc_perm (r : Row) (l : List Row) :
    (insertDesc r l).Perm (r :: l) := by
  induction l with
  | nil => simp [insertDesc]
  | cons s rest ih =>
    by_cases h : s.created_at < r.created_at
    · simp [insertDesc, h]
    · simp only [insertDesc, if_neg h]
      exact (ih.cons s).trans (List.Perm.swap r s rest)

/-- Inserting into a descending-sorted list keeps it descending-sorted. -/
theorem insertDesc_pairwise (r : Row) (l : List Row)
    (h : l.Pairwise (fun a b => b.created_at ≤ a.created_at)) :
    (insertDesc r l).Pairwise (fun a b => b.created_at ≤ a.created_at) := by
  induction l with
  | nil => simp [insertDesc]
  | cons s rest ih =>
    rcases List.pairwise_cons.mp h with ⟨hs, hrest⟩
    by_cases hlt : s.created_at < r.created_at
    · simp only [insertDesc, if_pos hlt]
      refine List.pairwise_cons.mpr ⟨?_, List.pairwise_cons.mpr ⟨hs, hrest⟩⟩
      intro x hx
      rcases List.mem_cons.mp hx with rfl | hx
      · exact Nat.le_of_lt hlt
      · exact Nat.le_trans (hs x hx) (Nat.le_of_lt hlt)
    · simp only [insertDesc, if_neg hlt]
      refine List.pairwise_cons.mpr ⟨?_, ih hrest⟩
      intro x hx
      have hx2 : x ∈ r :: rest := (insertDesc_perm r rest).subset hx
      rcases List.mem_cons.mp hx2 with rfl | hx2
      · exact Nat.le_of_not_lt hlt
      · exact hs x hx2

/-- The embedded `ORDER BY created_at DESC` returns a permutation of the
stored rows. -/
theorem sortByCreatedAtDesc_perm (l : List Row) :
    (sortByCreatedAtDesc l).Perm l := by
  induction l with
  | nil => simp [sortByCreatedAtDesc]
  | cons r rest ih =>
    exact (insertDesc_perm r (sortByCreatedAtDesc rest)).trans (ih.cons r)

/-- The embedded `ORDER BY created_at DESC` result is descending in
`created_at`. -/
theorem sortByCreatedAtDesc_pairwise (l : List Row) :
    (sortByCreatedAtDesc l).Pairwise (fun a b => b.created_at ≤ a.created_at) := by
  induction l with
  | nil => simp [sortByCreatedAtDesc]
  | cons r rest ih => exact insertDesc_pairwise r _ ih

/-- When multer lets the request through, the pipeline is the handler body
run on the stored file. -/
theorem processPost_eq_handlerBody (env : Env) (req : PostRequest)
    (h : filePhaseOk req = true) :
    processPost env req = handlerBody env req (storedFileOf req) := by
  cases hf : req.file with
  | none => simp [processPost, storedFileOf, hf]
  | some f =>
    have ha : fileAccepted f = true := by
      simpa [filePhaseOk, hf] using h
    simp [processPost, storedFileOf, hf, ha]

/-- Every committed row carries the five shared request fields. -/
theorem mem_committedRows (env : Env) (req : PostRequest) (tools : List Json)
    (sp : Option String) (r : Row) (hr : r ∈ committedRows env req tools sp) :
    r.user_name = req.userName.getD "" ∧
    r.assignment_title = req.assignmentTitle.getD "" ∧
    r.usage_purpose = req.usagePurpose.getD "" ∧
    r.ai_content = req.aiContent.getD "" ∧
    r.screenshot_path = sp := by
  simp only [committedRows, List.mem_map] at hr
  obtain ⟨p, _, rfl⟩ := hr
  simp [mkRow]

/-- When every issued insert commits, the committed rows are exactly one
row per tool element, in list order. -/
theorem committedRows_allOk (env : Env) (req : PostRequest) (tools : List Json)
    (sp : Option String) (hok : allInsertsOk env tools = true) :
    committedRows env req tools sp =
      tools.enum.map (fun p => mkRow req p.2 sp (env.now p.1)) := by
  unfold committedRows
  have hall := List.all_eq_true.mp hok
  rw [List.filter_eq_self.mpr hall]

/-- The committed rows' `ai_tool` column lists the tool elements verbatim
when every insert commits. -/
theorem committedRows_map_ai_tool (env : Env) (req : PostRequest)
    (tools : List Json) (sp : Option String)
    (hok : allInsertsOk env tools = true) :
    (committedRows env req tools sp).map Row.ai_tool = tools := by
  rw [committedRows_allOk env req tools sp hok, List.map_map]
  have : (Row.ai_tool ∘ fun p : Nat × Json => mkRow req p.2 sp (env.now p.1)) =
      Prod.snd := by
    funext p
    simp [mkRow]
  rw [this, List.enum_map_snd]

/-- Keys after an upsert: unchanged if the key already exists, appended at
the end otherwise. -/
theorem upsert_keys (acc : List (String × List Declaration)) (k : String)
    (d : Declaration) :
    (upsert acc k d).map Prod.fst =
      if k ∈ acc.map Prod.fst then acc.map Prod.fst
      else acc.map Prod.fst ++ [k] := by
  induction acc with
  | nil => simp [upsert]
  | cons p rest ih =>
    obtain ⟨k0, g⟩ := p
    by_cases h : k0 = k
    · subst h
      simp [upsert]
    · simp only [upsert, if_neg h, List.map_cons, ih]
      by_cases hm : k ∈ rest.map Prod.fst
      · simp [hm, h]
      · have hcons : k ∉ k0 :: rest.map Prod.fst := by
          intro hc
          rcases List.mem_cons.mp hc with hc | hc
          · exact h hc.symm
          · exact hm hc
        rw [if_neg hm, if_neg hcons]
        rfl

/-- The rows collected after an upsert are a permutation of the new row
consed onto the previously collected rows. -/
theorem upsert_join_perm (acc : List (String × List Declaration)) (k : String)
    (d : Declaration) :
    ((upsert acc k d).map Prod.snd).flatten.Perm
      (d :: (acc.map Prod.snd).flatten) := by
  induction acc with
  | nil => simp [upsert]
  | cons p rest ih =>
    obtain ⟨k0, g⟩ := p
    by_cases h : k0 = k
    · subst h
      have hu : upsert ((k0, g) :: rest) k0 d = (k0, g ++ [d]) :: rest := by
        simp [upsert]
      rw [hu]
      simp only [List.map_cons, List.flatten_cons]
      have he : (g ++ [d]) ++ (rest.map Prod.snd).flatten =
          g ++ d :: (rest.map Prod.snd).flatten := by
        simp
      rw [he]
      exact List.perm_middle
    · simp only [upsert, if_neg h, List.map_cons, List.flatten_cons]
      exact ((ih.append_left g).trans List.perm_middle)

/-- Upserting a row under its own group key preserves the invariant that
every stored row's key is its group's key. -/
theorem upsert_keysConsistent (acc : List (String × List Declaration))
    (k : String) (d : Declaration)
    (hacc : ∀ p ∈ acc, ∀ x ∈ p.2, groupKey x = p.1) (hd : groupKey d = k) :
    ∀ p ∈ upsert acc k d, ∀ x ∈ p.2, groupKey x = p.1 := by
  induction acc with
  | nil =>
    intro p hp x hx
    simp only [upsert, List.mem_singleton] at hp
    subst hp
    simp only [List.mem_singleton] at hx
    subst hx
    exact hd
  | cons q rest ih =>
    obtain ⟨k0, g⟩ := q
    have hq : ∀ x ∈ g, groupKey x = k0 := by
      intro x hx
      exact hacc (k0, g) (List.mem_cons_self _ _) x hx
    have hrest : ∀ p ∈ rest, ∀ x ∈ p.2, groupKey x = p.1 := by
      intro p hp x hx
      exact hacc p (List.mem_cons_of_mem _ hp) x hx
    by_cases h : k0 = k
    · subst h
      have hu : upsert ((k0, g) :: rest) k0 d = (k0, g ++ [d]) :: rest := by
        simp [upsert]
      intro p hp x hx
      rw [hu] at hp
      rcases List.mem_cons.mp hp with rfl | hp
      · have hx2 : x ∈ g ++ [d] := hx
        rcases List.mem_append.mp hx2 with hx3 | hx3
        · exact hq x hx3
        · have hx4 : x = d := List.mem_singleton.mp hx3
          subst hx4
          exact hd
      · exact hrest p hp x hx
    · intro p hp x hx
      simp only [upsert, if_neg h, List.mem_cons] at hp
      rcases hp with rfl | hp
      · exact hq x hx
      · exact ih hrest p hp x hx

/-- Upserting preserves non-emptiness of every group. -/
theorem upsert_ne_nil (acc : List (String × List Declaration)) (k : String)
    (d : Declaration) (hacc : ∀ p ∈ acc, p.2 ≠ []) :
    ∀ p ∈ upsert acc k d, p.2 ≠ [] := by
  induction acc with
  | nil =>
    intro p hp
    simp only [upsert, List.mem_singleton] at hp
    subst hp
    simp
  | cons q rest ih =>
    obtain ⟨k0, g⟩ := q
    have hg : g ≠ [] := hacc (k0, g) (List.mem_cons_self _ _)
    have hrest : ∀ p ∈ rest, p.2 ≠ [] := by
      intro p hp
      exact hacc p (List.mem_cons_of_mem _ hp)
    by_cases h : k0 = k
    · subst h
      have hu : upsert ((k0, g) :: rest) k0 d = (k0, g ++ [d]) :: rest := by
        simp [upsert]
      intro p hp
      rw [hu] at hp
      rcases List.mem_cons.mp hp with rfl | hp
      · show g ++ [d] ≠ []
        simp
      · exact hrest p hp
    · intro p hp
      simp only [upsert, if_neg h, List.mem_cons] at hp
      rcases hp with rfl | hp
      · exact hg
      · exact ih hrest p hp

/-- The equation of `newKeys` on a cons. -/
theorem newKeys_cons (seen : List String) (k : String) (ks : List String) :
    newKeys seen (k :: ks) =
      if k ∈ seen then newKeys seen ks
      else k :: newKeys (seen ++ [k]) ks := rfl

/-- The rows collected by the grouping fold are a permutation of the
accumulator's rows followed by the folded rows. -/
theorem foldl_addDecl_join (ds : List Declaration) :
    ∀ acc : List (String × List Declaration),
      (((ds.foldl addDecl acc).map Prod.snd).flatten).Perm
        ((acc.map Prod.snd).flatten ++ ds) := by
  induction ds with
  | nil =>
    intro acc
    simp
  | cons d ds ih =>
    intro acc
    simp only [List.foldl_cons]
    have h1 := ih (addDecl acc d)
    have h2 : (((addDecl acc d).map Prod.snd).flatten ++ ds).Perm
        ((d :: (acc.map Prod.snd).flatten) ++ ds) :=
      (upsert_join_perm acc (groupKey d) d).append_right ds
    have h4 : ((acc.map Prod.snd).flatten ++ d :: ds).Perm
        (d :: ((acc.map Prod.snd).flatten ++ ds)) := List.perm_middle
    exact (h1.trans h2).trans h4.symm

/-- The group keys produced by the grouping fold are the accumulator's keys
followed by the folded keys in first-seen order. -/
theorem foldl_addDecl_keys (ds : List Declaration) :
    ∀ acc : List (String × List Declaration),
      (ds.foldl addDecl acc).map Prod.fst =
        acc.map Prod.fst ++ newKeys (acc.map Prod.fst) (ds.map groupKey) := by
  induction ds with
  | nil =>
    intro acc
    simp [newKeys]
  | cons d ds ih =>
    intro acc
    simp only [List.foldl_cons, List.map_cons, newKeys_cons]
    rw [ih (addDecl acc d)]
    have hk := upsert_keys acc (groupKey d) d
    by_cases hm : groupKey d ∈ acc.map Prod.fst
    · have h1 : (addDecl acc d).map Prod.fst = acc.map Prod.fst := by
        rw [addDecl, hk, if_pos hm]
      rw [h1, if_pos hm]
    · have h1 : (addDecl acc d).map Prod.fst = acc.map Prod.fst ++ [groupKey d] := by
        rw [addDecl, hk, if_neg hm]
      rw [h1, if_neg hm, List.append_assoc]
      rfl

/-- The function `newKeys` yields keys without duplicates, none of them
already seen. -/
theorem newKeys_nodup_not_mem (l : List String) :
    ∀ seen, (newKeys seen l).Nodup ∧ ∀ x ∈ newKeys seen l, x ∉ seen := by
  induction l with
  | nil =>
    intro seen
    simp [newKeys]
  | cons k ks ih =>
    intro seen
    rw [newKeys_cons]
    by_cases hm : k ∈ seen
    · simp only [if_pos hm]
      exact ih seen
    · simp only [if_neg hm]
      obtain ⟨hnd, hnm⟩ := ih (seen ++ [k])
      constructor
      · refine List.nodup_cons.mpr ⟨?_, hnd⟩
        intro hk
        exact (hnm k hk) (by simp)
      · intro x hx
        rcases List.mem_cons.mp hx with rfl | hx
        · exact hm
        · intro hxs
          exact (hnm x hx) (by simp [hxs])

/-- The grouping fold preserves the key-consistency invariant. -/
theorem foldl_addDecl_consistent (ds : List Declaration) :
    ∀ acc : List (String × List Declaration),
      (∀ p ∈ acc, ∀ x ∈ p.2, groupKey x = p.1) →
      ∀ p ∈ ds.foldl addDecl acc, ∀ x ∈ p.2, groupKey x = p.1 := by
  induction ds with
  | nil =>
    intro acc hacc
    simpa using hacc
  | cons d ds ih =>
    intro acc hacc
    simp only [List.foldl_cons]
    exact ih (addDecl acc d) (upsert_keysConsistent acc (groupKey d) d hacc rfl)

/-- The grouping fold preserves non-emptiness of every group. -/
theorem foldl_addDecl_ne_nil (ds : List Declaration) :
    ∀ acc : List (String × List Declaration),
      (∀ p ∈ acc, p.2 ≠ []) →
      ∀ p ∈ ds.foldl addDecl acc, p.2 ≠ [] := by
  induction ds with
  | nil =>
    intro acc hacc
    simpa using hacc
  | cons d ds ih =>
    intro acc hacc
    simp only [List.foldl_cons]
    exact ih (addDecl acc d) (upsert_ne_nil acc (groupKey d) d hacc)

/-- Mapping a list through `filterMap` by a function that never drops
keeps the length. -/
theorem length_filterMap_of_isSome {α β : Type} (f : α → Option β)
    (l : List α) (h : ∀ x ∈ l, (f x).isSome = true) :
    (l.filterMap f).length = l.length := by
  induction l with
  | nil => simp
  | cons a l ih =>
    have ha : (f a).isSome = true := h a (List.mem_cons_self _ _)
    obtain ⟨b, hb⟩ := Option.isSome_iff_exists.mp ha
    rw [List.filterMap_cons, hb]
    simp only [List.length_cons]
    rw [ih (fun x hx => h x (List.mem_cons_of_mem _ hx))]

/-- The combined validation flag is false exactly when one of its two
parts is. -/
theorem validationOk_false_iff (req : PostRequest) :
    validationOk req = false ↔ (fieldsOk req = false ∨ toolsOk req = false) := by
  cases h1 : fieldsOk req <;> cases h2 : toolsOk req <;>
    simp [validationOk, h1, h2]

/-- When validation fails the handler answers 400, commits nothing, and
leaves no file on disk. -/
theorem handlerBody_invalid (env : Env) (req : PostRequest)
    (sf : Option String) (hval : validationOk req = false) :
    (handlerBody env req sf).status = 400 ∧
    (handlerBody env req sf).rows = [] ∧
    (handlerBody env req sf).fileOnDisk = none := by
  by_cases hfd : fieldsOk req = true
  · have ht : toolsOk req = false := by
      rcases (validationOk_false_iff req).mp hval with h | h
      · rw [hfd] at h
        cases h
      · exact h
    have hX : (falsy req.userName || falsy req.assignmentTitle ||
        falsy req.aiTools || falsy req.usagePurpose || falsy req.aiContent) =
        false := by
      simpa [fieldsOk] using hfd
    cases hj : req.aiToolsJson with
    | none => simp [handlerBody, hX, hj, invalidToolsOutcome]
    | some j =>
      cases j with
      | arr tools =>
        have hne : tools.isEmpty = true := by
          simpa [toolsOk, hj] using ht
        simp [handlerBody, hX, hj, hne, invalidToolsOutcome]
      | null => simp [handlerBody, hX, hj, invalidToolsOutcome]
      | bool b => simp [handlerBody, hX, hj, invalidToolsOutcome]
      | num n => simp [handlerBody, hX, hj, invalidToolsOutcome]
      | str s => simp [handlerBody, hX, hj, invalidToolsOutcome]
      | obj fs => simp [handlerBody, hX, hj, invalidToolsOutcome]
  · have hfdf : fieldsOk req = false := by
      simpa using hfd
    have hX : (falsy req.userName || falsy req.assignmentTitle ||
        falsy req.aiTools || falsy req.usagePurpose || falsy req.aiContent) =
        true := by
      cases hb : (falsy req.userName || falsy req.assignmentTitle ||
          falsy req.aiTools || falsy req.usagePurpose || falsy req.aiContent) with
      | false =>
        unfold fieldsOk at hfdf
        rw [hb] at hfdf
        cases hfdf
      | true => rfl
    simp [handlerBody, hX]

/-- When validation passes the handler never answers 400: it reaches the
insert fan-out and answers 201 or 500. -/
theorem handlerBody_valid_not_400 (env : Env) (req : PostRequest)
    (sf : Option String) (hval : validationOk req = true) :
    (handlerBody env req sf).status = 201 ∨
    (handlerBody env req sf).status = 500 := by
  have hfd : fieldsOk req = true := (Bool.and_eq_true _ _ |>.mp hval).1
  have ht : toolsOk req = true := (Bool.and_eq_true _ _ |>.mp hval).2
  have hX : (falsy req.userName || falsy req.assignmentTitle ||
      falsy req.aiTools || falsy req.usagePurpose || falsy req.aiContent) =
      false := by
    simpa [fieldsOk] using hfd
  cases hj : req.aiToolsJson with
  | none =>
    rw [toolsOk, hj] at ht
    cases ht
  | some j =>
    cases j with
    | arr tools =>
      have hne : tools.isEmpty = false := by
        rw [toolsOk, hj] at ht
        simpa using ht
      by_cases hok : allInsertsOk env tools = true
      · left
        simp [handlerBody, hX, hj, hne, hok]
      · right
        have hokf : allInsertsOk env tools = false := by
          simpa using hok
        simp [handlerBody, hX, hj, hne, hokf]
    | null =>
      rw [toolsOk, hj] at ht
      cases ht
    | bool b =>
      rw [toolsOk, hj] at ht
      cases ht
    | num n =>
      rw [toolsOk, hj] at ht
      cases ht
    | str s =>
      rw [toolsOk, hj] at ht
      cases ht
    | obj fs =>
      rw [toolsOk, hj] at ht
      cases ht

/-- An environment where every insert commits. -/
def envOK : Env :=
  { nodeEnv := "test", insertOk := fun _ => true, now := fun _ => 100
    dbErrMsg := "db error" }

/-- The concrete scenario of the specification: Alice declares ChatGPT and
Grammarly on Essay 1, no file. -/
def reqGood : PostRequest :=
  { userName := some "Alice", assignmentTitle := some "Essay 1"
    aiTools := some "[\x22ChatGPT\x22,\x22Grammarly\x22]"
    usagePurpose := some "brainstorming", aiContent := some "outline"
    file := none
    aiToolsJson := some (Json.arr [Json.str "ChatGPT", Json.str "Grammarly"]) }

/-- A request whose `aiTools` string `[1]` parses as a non-empty array
whose element is not a string. -/
def reqNumTool : PostRequest :=
  { userName := some "A", assignmentTitle := some "B"
    aiTools := some "[1]", usagePurpose := some "p", aiContent := some "c"
    file := none, aiToolsJson := some (Json.arr [Json.num 1]) }

/-- A request whose `userName` is a single space: truthy in JavaScript, so
it passes the handler's check, yet empty after trimming. -/
def reqWS : PostRequest :=
  { userName := some " ", assignmentTitle := some "T"
    aiTools := some "[\x22ChatGPT\x22]", usagePurpose := some "p"
    aiContent := some "c", file := none
    aiToolsJson := some (Json.arr [Json.str "ChatGPT"]) }

/-- A well-formed png upload. -/
def pngFile : UploadedFile :=
  { originalname := "s.png", mimetype := "image/png", size := 100
    uniqueSuffix := "7" }

/-- An apng upload: not in the allow-list, but both its extension ".apng"
and its MIME type "image/apng" contain "png" as a substring, so the
unanchored regex accepts it. -/
def apngFile : UploadedFile :=
  { originalname := "shot.apng", mimetype := "image/apng", size := 10
    uniqueSuffix := "9" }

/-- A genuine text upload, rejected by the file filter. -/
def txtFile : UploadedFile :=
  { originalname := "notes.txt", mimetype := "text/plain", size := 10
    uniqueSuffix := "3" }

/-- An environment in production mode in which only the first issued
insert commits. -/
def envPartial : Env :=
  { nodeEnv := "production", insertOk := fun i => i == 0, now := fun _ => 100
    dbErrMsg := "insert failed" }

/-- A valid two-tool submission carrying the png upload. -/
def reqTwoTools : PostRequest :=
  { userName := some "A", assignmentTitle := some "B"
    aiTools := some "[\x22a\x22,\x22b\x22]", usagePurpose := some "p"
    aiContent := some "c", file := some pngFile
    aiToolsJson := some (Json.arr [Json.str "a", Json.str "b"]) }

/-- A submission with an empty `userName` but an accepted png upload:
validation fails after the file was stored. -/
def reqEmptyName : PostRequest :=
  { userName := some "", assignmentTitle := some "B"
    aiTools := some "[\x22a\x22]", usagePurpose := some "p"
    aiContent := some "c", file := some pngFile
    aiToolsJson := some (Json.arr [Json.str "a"]) }

/-- A fetched row whose `user_name` contains a dash. -/
def dashRow1 : Declaration :=
  { id := 1, user_name := "a-b", assignment_title := "c", ai_tool := "T1"
    usage_purpose := "p1", ai_content := "c1", screenshot_path := none
    created_at := "t" }

/-- A fetched row with a different (user, assignment) pair that produces
the same concatenated grouping key as `dashRow1`. -/
def dashRow2 : Declaration :=
  { id := 2, user_name := "a", assignment_title := "b-c", ai_tool := "T2"
    usage_purpose := "p2", ai_content := "c2", screenshot_path := none
    created_at := "t" }

/-- Claim C1 — for every valid submission whose parsed `aiTools` list has
k elements (and whose inserts all commit), the POST handler inserts exactly
k rows, one per list element in order (duplicates included), all sharing
the request's `user_name`, `assignment_title`, `usage_purpose`,
`ai_content` and the common `screenshot_path`, and responds HTTP 201 with
success `true` and message `Successfully created k declaration(s)`. -/
theorem C1_post_creates_one_row_per_tool (env : Env) (req : PostRequest)
    (tools : List Json)
    (hfile : filePhaseOk req = true)
    (hjson : req.aiToolsJson = some (Json.arr tools))
    (hfields : fieldsOk req = true)
    (hne : tools.isEmpty = false)
    (hok : allInsertsOk env tools = true) :
    (processPost env req).status = 201 ∧
    (processPost env req).success = true ∧
    (processPost env req).message =
      "Successfully created " ++ toString tools.length ++ " declaration(s)" ∧
    (processPost env req).rows.map Row.ai_tool = tools ∧
    ∀ r ∈ (processPost env req).rows,
      r.user_name = req.userName.getD "" ∧
      r.assignment_title = req.assignmentTitle.getD "" ∧
      r.usage_purpose = req.usagePurpose.getD "" ∧
      r.ai_content = req.aiContent.getD "" ∧
      r.screenshot_path = screenshotPath (storedFileOf req) := by
  rw [processPost_eq_handlerBody env req hfile]
  have hX : (falsy req.userName || falsy req.assignmentTitle ||
      falsy req.aiTools || falsy req.usagePurpose || falsy req.aiContent) =
      false := by
    simpa [fieldsOk] using hfields
  simp only [handlerBody, hX, Bool.false_eq_true, if_false, hjson, hne,
    Bool.true_eq_false, hok, if_true]
  refine ⟨trivial, trivial, trivial, ?_, ?_⟩
  · exact committedRows_map_ai_tool env req tools _ hok
  · intro r hr
    exact mem_committedRows env req tools _ r hr

/-- Witness for C1 at the specification's concrete scenario (Alice,
Essay 1, two tools): the response is HTTP 201. -/
theorem C1_witness : (processPost envOK reqGood).status = 201 :=
  (C1_post_creates_one_row_per_tool envOK reqGood
    [Json.str "ChatGPT", Json.str "Grammarly"]
    (by decide) rfl (by decide) (by decide) (by decide)).1

/-- Claim C3 — `GET /api/declarations` answers HTTP 200 with success, its
`data` holds every stored row (a permutation of the store, so no filtering
and no pagination), ordered by `created_at` descending, and `count` equals
the length of `data`. -/
theorem C3_get_returns_all_rows_sorted (store : List Row) :
    (getDeclarations store).status = 200 ∧
    (getDeclarations store).success = true ∧
    (getDeclarations store).data.Perm store ∧
    (getDeclarations store).data.Pairwise
      (fun a b => b.created_at ≤ a.created_at) ∧
    (getDeclarations store).count = (getDeclarations store).data.length :=
  ⟨rfl, rfl, sortByCreatedAtDesc_perm store, sortByCreatedAtDesc_pairwise store,
    rfl⟩

/-- Claim C2 (amended) — for a request that clears the upload phase, the
handler answers HTTP 400 with zero rows inserted exactly when a required
text field is missing/empty or `aiTools` fails to parse as a non-empty
ARRAY (the code never checks that the elements are strings); every request
passing these checks proceeds past validation (it never gets a 400). -/
theorem C2_validation_iff_400 (env : Env) (req : PostRequest)
    (hfile : filePhaseOk req = true) :
    (((processPost env req).status = 400 ∧ (processPost env req).rows = []) ↔
      (fieldsOk req = false ∨ toolsOk req = false)) ∧
    (validationOk req = true → (processPost env req).status ≠ 400) := by
  rw [processPost_eq_handlerBody env req hfile]
  constructor
  · constructor
    · intro h400
      cases hval : validationOk req with
      | false => exact (validationOk_false_iff req).mp hval
      | true =>
        rcases handlerBody_valid_not_400 env req (storedFileOf req) hval with
          hs | hs <;> rw [hs] at h400 <;> cases h400.1
    · intro hr
      have hval : validationOk req = false := (validationOk_false_iff req).mpr hr
      have h := handlerBody_invalid env req (storedFileOf req) hval
      exact ⟨h.1, h.2.1⟩
  · intro hval h400
    rcases handlerBody_valid_not_400 env req (storedFileOf req) hval with
      hs | hs <;> rw [hs] at h400 <;> cases h400

/-- Counterexample to C2 as stated: the request whose `aiTools` is `[1]`
parses as a non-empty array that is NOT a list of strings, so the claimed
equivalence demands HTTP 400 — but the handler accepts it with HTTP 201. -/
theorem C2_counterexample :
    ¬(((processPost envOK reqNumTool).status = 400 ∧
        (processPost envOK reqNumTool).rows = []) ↔
      (fieldsOk reqNumTool = false ∨ specStringListOk reqNumTool = false)) := by
  intro h
  have h1 : (processPost envOK reqNumTool).status = 400 ∧
      (processPost envOK reqNumTool).rows = [] :=
    h.mpr (Or.inr (by decide))
  have h2 : (processPost envOK reqNumTool).status = 201 := by decide
  rw [h2] at h1
  exact absurd h1.1 (by decide)

/-- Witness for C2 at the valid concrete scenario: the response is not a
400. -/
theorem C2_witness : (processPost envOK reqGood).status ≠ 400 :=
  (C2_validation_iff_400 envOK reqGood (by decide)).2 (by decide)

/-- Claim C9 — when a file was received and stored and the handler's
validation then fails (missing/empty required field or malformed
`aiTools`), the stored file is deleted before the 400 response: no uploaded
file remains on disk and no row is created. -/
theorem C9_validation_failure_removes_upload (env : Env) (req : PostRequest)
    (f : UploadedFile) (hf : req.file = some f)
    (hacc : fileAccepted f = true) (hval : validationOk req = false) :
    (processPost env req).status = 400 ∧
    (processPost env req).fileOnDisk = none ∧
    (processPost env req).rows = [] := by
  have hfile : filePhaseOk req = true := by
    simp [filePhaseOk, hf, hacc]
  rw [processPost_eq_handlerBody env req hfile]
  have h := handlerBody_invalid env req (storedFileOf req) hval
  exact ⟨h.1, h.2.2, h.2.1⟩

/-- Witness for C9: an empty `userName` with an accepted png upload gets a
400, the file is removed, and nothing is inserted. -/
theorem C9_witness :
    (processPost envOK reqEmptyName).status = 400 ∧
    (processPost envOK reqEmptyName).fileOnDisk = none ∧
    (processPost envOK reqEmptyName).rows = [] :=
  C9_validation_failure_removes_upload envOK reqEmptyName pngFile rfl
    (by decide) (by decide)

/-- The valid concrete scenario with the text file attached. -/
def reqTxt : PostRequest :=
  { userName := some "Alice", assignmentTitle := some "Essay 1"
    aiTools := some "[\x22ChatGPT\x22]", usagePurpose := some "brainstorming"
    aiContent := some "outline", file := some txtFile
    aiToolsJson := some (Json.arr [Json.str "ChatGPT"]) }

/-- The first row the concrete scenario commits. -/
def aliceRow : Row :=
  { user_name := "Alice", assignment_title := "Essay 1"
    ai_tool := Json.str "ChatGPT", usage_purpose := "brainstorming"
    ai_content := "outline", screenshot_path := none, created_at := 100 }

/-- A non-falsy optional field holds a non-empty string. -/
theorem getD_ne_empty_of_falsy_false (o : Option String)
    (h : falsy o = false) : o.getD "" ≠ "" := by
  cases o with
  | none => cases h
  | some s =>
    have hs : s ≠ "" := by
      simpa [falsy] using h
    simpa using hs

/-- Every row the handler body commits has a non-empty `user_name` and a
non-empty `assignment_title` (the validation only checks falsiness). -/
theorem handlerBody_rows_names (env : Env) (req : PostRequest)
    (sf : Option String) (r : Row)
    (hr : r ∈ (handlerBody env req sf).rows) :
    r.user_name ≠ "" ∧ r.assignment_title ≠ "" := by
  cases hX : (falsy req.userName || falsy req.assignmentTitle ||
      falsy req.aiTools || falsy req.usagePurpose || falsy req.aiContent) with
  | true =>
    simp [handlerBody, hX] at hr
  | false =>
    have hXs := hX
    simp only [Bool.or_eq_false_iff] at hXs
    have hun : falsy req.userName = false := hXs.1.1.1.1
    have hat : falsy req.assignmentTitle = false := hXs.1.1.1.2
    cases hj : req.aiToolsJson with
    | none => simp [handlerBody, hX, hj, invalidToolsOutcome] at hr
    | some j =>
      cases j with
      | arr tools =>
        cases hne : tools.isEmpty with
        | true => simp [handlerBody, hX, hj, hne, invalidToolsOutcome] at hr
        | false =>
          have hmem : r ∈ committedRows env req tools (screenshotPath sf) := by
            cases hok : allInsertsOk env tools with
            | true => simpa [handlerBody, hX, hj, hne, hok] using hr
            | false => simpa [handlerBody, hX, hj, hne, hok] using hr
          have hfields := mem_committedRows env req tools _ r hmem
          constructor
          · rw [hfields.1]
            exact getD_ne_empty_of_falsy_false req.userName hun
          · rw [hfields.2.1]
            exact getD_ne_empty_of_falsy_false req.assignmentTitle hat
      | null => simp [handlerBody, hX, hj, invalidToolsOutcome] at hr
      | bool b => simp [handlerBody, hX, hj, invalidToolsOutcome] at hr
      | num n => simp [handlerBody, hX, hj, invalidToolsOutcome] at hr
      | str s => simp [handlerBody, hX, hj, invalidToolsOutcome] at hr
      | obj fs => simp [handlerBody, hX, hj, invalidToolsOutcome] at hr

/-- Claim C5 (amended) — multer stores the upload iff the lowercased
extension and the raw MIME type each CONTAIN one of jpeg/jpg/png/gif/webp
as a substring (the regex `/jpeg|jpg|png|gif|webp/` is unanchored, so e.g.
`.apng` with `image/apng` is also accepted) and the size is at most
5 MiB; a refused file fails the whole request with no rows created and no
file left on disk. -/
theorem C5_file_gate (env : Env) (req : PostRequest) (f : UploadedFile)
    (hf : req.file = some f) :
    (fileAccepted f = true ↔
      (allowedTypesTest (lowerAscii (extname f.originalname)) = true ∧
       allowedTypesTest f.mimetype = true ∧
       f.size ≤ 5 * 1024 * 1024)) ∧
    (fileAccepted f = false →
      (processPost env req).success = false ∧
      (processPost env req).rows = [] ∧
      (processPost env req).fileOnDisk = none) := by
  constructor
  · constructor
    · intro h
      rcases (Bool.and_eq_true _ _).mp h with ⟨h1, h2⟩
      rcases (Bool.and_eq_true _ _).mp h1 with ⟨ha, hb⟩
      exact ⟨ha, hb, of_decide_eq_true h2⟩
    · rintro ⟨ha, hb, hc⟩
      simp [fileAccepted, fileFilter, ha, hb, hc]
  · intro hrej
    simp [processPost, hf, hrej, multerErrorOutcome]

/-- Counterexample to C5 as stated: the apng upload passes the code's
filter although its extension and MIME type are not IN the allow-list. -/
theorem C5_counterexample :
    ¬(fileAccepted apngFile = true ↔ specFileAccepted apngFile = true) := by
  decide

/-- Witness for C5: a genuine text file is refused and the request fails
with no rows and no stored file. -/
theorem C5_witness :
    (processPost envOK reqTxt).success = false ∧
    (processPost envOK reqTxt).rows = [] ∧
    (processPost envOK reqTxt).fileOnDisk = none :=
  (C5_file_gate envOK reqTxt txtFile rfl).2 (by decide)

/-- Claim C6 (amended) — every row the pipeline persists has a non-empty
`user_name` and a non-empty `assignment_title` as raw strings; the
validation does NOT trim, so whitespace-only values do get stored. -/
theorem C6_rows_have_nonempty_names (env : Env) (req : PostRequest) :
    ∀ r ∈ (processPost env req).rows,
      r.user_name ≠ "" ∧ r.assignment_title ≠ "" := by
  intro r hr
  cases hfq : req.file with
  | none =>
    rw [show processPost env req = handlerBody env req none from by
      simp [processPost, hfq]] at hr
    exact handlerBody_rows_names env req none r hr
  | some f =>
    by_cases hacc : fileAccepted f = true
    · rw [show processPost env req =
          handlerBody env req (some (storedFilename f)) from by
        simp [processPost, hfq, hacc]] at hr
      exact handlerBody_rows_names env req _ r hr
    · have haccf : fileAccepted f = false := by
        simpa using hacc
      rw [show processPost env req = multerErrorOutcome env f from by
        simp [processPost, hfq, haccf]] at hr
      simp [multerErrorOutcome] at hr

/-- Counterexample to C6 as stated: a single-space `userName` is truthy,
so the submission is accepted (HTTP 201) and the persisted row's
`user_name` is empty after trimming. -/
theorem C6_counterexample :
    (processPost envOK reqWS).status = 201 ∧
    ¬(∀ r ∈ (processPost envOK reqWS).rows,
        trimmedNonEmpty r.user_name = true) := by
  decide

/-- Witness for C6 at the concrete scenario's first committed row. -/
theorem C6_witness : aliceRow.user_name ≠ "" := by
  have hm : aliceRow ∈ (processPost envOK reqGood).rows := by
    have he : (processPost envOK reqGood).rows =
        aliceRow :: [mkRow reqGood (Json.str "Grammarly") none 100] := rfl
    rw [he]
    exact List.mem_cons_self _ _
  exact (C6_rows_have_nonempty_names envOK reqGood aliceRow hm).1

/-- Claim C7 (amended) — when validation passed but some insert fails, the
handler answers 500, the rows whose inserts committed remain in the store
(no rollback), and the stored upload is deleted: file deletion happens on
insert failure as well, not only on validation failure. -/
theorem C7_insert_failure_no_rollback_file_deleted (env : Env)
    (req : PostRequest) (tools : List Json)
    (hfile : filePhaseOk req = true)
    (hjson : req.aiToolsJson = some (Json.arr tools))
    (hfields : fieldsOk req = true)
    (hne : tools.isEmpty = false)
    (hfail : allInsertsOk env tools = false) :
    (processPost env req).status = 500 ∧
    (processPost env req).fileOnDisk = none ∧
    (processPost env req).rows =
      committedRows env req tools (screenshotPath (storedFileOf req)) := by
  rw [processPost_eq_handlerBody env req hfile]
  have hX : (falsy req.userName || falsy req.assignmentTitle ||
      falsy req.aiTools || falsy req.usagePurpose || falsy req.aiContent) =
      false := by
    simpa [fieldsOk] using hfields
  simp [handlerBody, hX, hjson, hne, hfail]

/-- Counterexample to C7 as stated: with a stored png and one failing
insert out of two, a committed row remains but the stored file does NOT
remain on disk — the catch block deletes it. -/
theorem C7_counterexample :
    reqTwoTools.file = some pngFile ∧
    fileAccepted pngFile = true ∧
    (processPost envPartial reqTwoTools).status = 500 ∧
    (processPost envPartial reqTwoTools).rows.length = 1 ∧
    (processPost envPartial reqTwoTools).fileOnDisk = none := by
  refine ⟨rfl, by decide, by decide, by decide, by decide⟩

/-- Witness for C7 at the concrete partial-failure scenario. -/
theorem C7_witness :
    (processPost envPartial reqTwoTools).status = 500 ∧
    (processPost envPartial reqTwoTools).fileOnDisk = none := by
  have h := C7_insert_failure_no_rollback_file_deleted envPartial reqTwoTools
    [Json.str "a", Json.str "b"] (by decide) rfl (by decide) (by decide)
    (by decide)
  exact ⟨h.1, h.2.1⟩

/-- Claim C8 (amended) — the catch blocks of the declarations routes attach
the underlying error detail to their 500 responses in EVERY mode: the POST
catch sends `error: error.message` and the GET catch does too, with no
environment gate; only the (unused by these routes) `errorResponse` helper
of responses.js gates the detail to development mode. -/
theorem C8_error_detail_ungated (env : Env) (req : PostRequest)
    (tools : List Json) (e : String)
    (hfile : filePhaseOk req = true)
    (hjson : req.aiToolsJson = some (Json.arr tools))
    (hfields : fieldsOk req = true)
    (hne : tools.isEmpty = false)
    (hfail : allInsertsOk env tools = false) :
    (processPost env req).status = 500 ∧
    (processPost env req).error = some env.dbErrMsg ∧
    (getDeclarationsFailure e).error = some e ∧
    (∀ nodeEnv msg code err,
      (errorResponse nodeEnv msg code (some err)).2.error =
        if nodeEnv = "development" then some err else none) := by
  refine ⟨?_, ?_, rfl, fun nodeEnv msg code err => rfl⟩
  · rw [processPost_eq_handlerBody env req hfile]
    have hX : (falsy req.userName || falsy req.assignmentTitle ||
        falsy req.aiTools || falsy req.usagePurpose || falsy req.aiContent) =
        false := by
      simpa [fieldsOk] using hfields
    simp [handlerBody, hX, hjson, hne, hfail]
  · rw [processPost_eq_handlerBody env req hfile]
    have hX : (falsy req.userName || falsy req.assignmentTitle ||
        falsy req.aiTools || falsy req.usagePurpose || falsy req.aiContent) =
        false := by
      simpa [fieldsOk] using hfields
    simp [handlerBody, hX, hjson, hne, hfail]

/-- Counterexample to C8 as stated: in production mode a failed insert
still yields a 500 body carrying the error detail. -/
theorem C8_counterexample :
    envPartial.nodeEnv = "production" ∧
    (processPost envPartial reqTwoTools).status = 500 ∧
    (processPost envPartial reqTwoTools).error ≠ none := by
  decide

/-- Witness for C8 at the concrete production-mode failure. -/
theorem C8_witness :
    (processPost envPartial reqTwoTools).error = some "insert failed" :=
  (C8_error_detail_ungated envPartial reqTwoTools [Json.str "a", Json.str "b"]
    "boom" (by decide) rfl (by decide) (by decide) (by decide)).2.1

/-- Claim C4 (amended) — the client grouping is a partition of the fetched
rows: the groups' rows together are a permutation of the input (every row
in exactly one group), all rows of a group share the group's concatenated
key `user_name ++ "-" ++ assignment_title ++ "-" ++ created_at`, distinct
groups have distinct keys, and group keys appear in first-seen order.  Two
rows land in the same group iff their concatenated KEYS are equal — equal
triples imply equal keys, but not conversely, since "-" may occur inside
the fields. -/
theorem C4_grouping_partition (ds : List Declaration) :
    (((groupedDeclarations ds).map Prod.snd).flatten).Perm ds ∧
    (∀ p ∈ groupedDeclarations ds, ∀ d ∈ p.2, groupKey d = p.1) ∧
    ((groupedDeclarations ds).map Prod.fst).Nodup ∧
    (groupedDeclarations ds).map Prod.fst = newKeys [] (ds.map groupKey) := by
  refine ⟨?_, ?_, ?_, ?_⟩
  · have h := foldl_addDecl_join ds []
    simpa [groupedDeclarations] using h
  · intro p hp d hd
    exact foldl_addDecl_consistent ds [] (by simp) p hp d hd
  · have hk : (groupedDeclarations ds).map Prod.fst =
        newKeys [] (ds.map groupKey) := by
      have h := foldl_addDecl_keys ds []
      simpa [groupedDeclarations] using h
    rw [hk]
    exact (newKeys_nodup_not_mem (ds.map groupKey) []).1
  · have h := foldl_addDecl_keys ds []
    simpa [groupedDeclarations] using h

/-- Counterexample to C4 as stated: `dashRow1` and `dashRow2` have
different `(user_name, assignment_title, created_at)` triples, yet the
dash-concatenated keys collide ("a-b"+"c" vs "a"+"b-c"), so they are
placed in the same group. -/
theorem C4_counterexample :
    groupedDeclarations [dashRow1, dashRow2] =
      [("a-b-c-t", [dashRow1, dashRow2])] ∧
    (dashRow1.user_name, dashRow1.assignment_title, dashRow1.created_at) ≠
      (dashRow2.user_name, dashRow2.assignment_title, dashRow2.created_at) := by
  decide

/-- Witness for C4 on the concrete two-row list. -/
theorem C4_witness :
    (((groupedDeclarations [dashRow1, dashRow2]).map Prod.snd).flatten).Perm
      [dashRow1, dashRow2] :=
  (C4_grouping_partition [dashRow1, dashRow2]).1

/-- Claim C10 — every group renders exactly one card; a card's title,
user name, date, purpose, content and screenshot come exclusively from the
group's first row, while every row of the group contributes its `ai_tool`
badge; consequently card rendering cannot observe any other field of the
later rows. -/
theorem C10_card_fields_from_first_row (fmt : String → String)
    (ds : List Declaration) :
    (homePageCards fmt ds).length = (groupedDeclarations ds).length ∧
    (∀ d0 rest, renderCard fmt (d0 :: rest) = some
      { assignment_title := d0.assignment_title
        user_name := d0.user_name
        date := fmt d0.created_at
        tools := (d0 :: rest).map Declaration.ai_tool
        usage_purpose := d0.usage_purpose
        ai_content := d0.ai_content
        screenshot_path := d0.screenshot_path }) ∧
    (∀ d0 t1 t2, t1.map Declaration.ai_tool = t2.map Declaration.ai_tool →
      renderCard fmt (d0 :: t1) = renderCard fmt (d0 :: t2)) := by
  refine ⟨?_, fun d0 rest => rfl, ?_⟩
  · unfold homePageCards
    apply length_filterMap_of_isSome
    intro p hp
    have hne := foldl_addDecl_ne_nil ds [] (by simp) p hp
    cases hg : p.2 with
    | nil => exact absurd hg hne
    | cons d0 rest => simp [renderCard, hg]
  · intro d0 t1 t2 h
    simp [renderCard, h]

/-- Witness for C10 on the concrete two-row list. -/
theorem C10_witness :
    (homePageCards (fun s => s) [dashRow1, dashRow2]).length =
      (groupedDeclarations [dashRow1, dashRow2]).length :=
  (C10_card_fields_from_first_row (fun s => s) [dashRow1, dashRow2]).1

end AiGuidebook
